import Mathlib

/-!
Shallow embedding of `poker/player_server.py` (class `PlayerServer`), the
protocol adapter between the game engine and one remote participant.

Modelling conventions:
* A card and its serialized form (`Card.dto`, external to this file's source)
  are abstracted as a natural number identifier.
* A hand score is abstracted by its rank in the external total order
  (`Score`, external collaborator).
* Python floats are modelled as rationals: the claims under study only use
  exact comparisons on small decimal values.
* The inbound side of the channel is modelled as a list of receive events:
  each `recv_message` call either yields the next message, or raises
  `MessageTimeout` or `ChannelError`.  An exhausted event list stands for a
  receive that never yields a message, reported as a timeout.
* Inbound messages are Python dicts; the fields the adapter reads are
  modelled as optional fields of a structure (`none` = key absent).
* Elements of the inbound `cards` list are modelled as integers or strings
  (`PyVal`): a string is the representative of an element that is not usable
  as a sequence index.  The value of the inbound `bet` field is a number or
  a string (`BetVal`), mirroring `float(...)`-accepted shapes.
-/

namespace PyPoker

/-- A card, abstracted as an identifier; `card_dto` stands for `Card.dto()`. -/
abbrev Card := Nat

/-- A hand score, abstracted by its rank in the external score-ranking
total order (larger rank = stronger hand). -/
structure Score where
  rank : Nat
deriving DecidableEq, Repr

/-- Modelled from the spec: `Score.cmp` is an external collaborator (score
representation and comparison are out of scope of the source file).  Section
4.2 of the spec fixes its contract at this boundary:
`(minOpeningScore compared-to newScore) >= 0` holds exactly when the new
score meets or exceeds the minimum (ties eligible).  Hence `a.cmp b` is
nonnegative iff `b` ranks at least `a`. -/
def Score.cmp (a b : Score) : Int :=
  if a.rank < b.rank then 1 else if b.rank < a.rank then -1 else 0

/-- An element of an inbound `cards` list: an integer index, or a value that
cannot be used as a sequence index (represented by a string). -/
inductive PyVal where
  | int (n : Int)
  | str (s : String)
deriving DecidableEq, Repr

/-- A value of the inbound `bet` field: a number, or a string to be parsed
by `float(...)`. -/
inductive BetVal where
  | num (q : ℚ)
  | str (s : String)
deriving DecidableEq, Repr

/-- The Python exception kinds arising inside the `try` blocks. -/
inductive PyErr where
  | typeError
  | indexError
  | valueError
deriving DecidableEq, Repr

/-- A wire message (a Python dict); only the keys the adapter reads or
writes are modelled, `none` meaning the key is absent.  The outbound
`timeout` field of the bet request carries the raw deadline; its
`strftime` rendering is not modelled (no claim reads it). -/
structure Msg where
  msg_id : Option String := none
  cards : Option (List PyVal) := none
  bet : Option BetVal := none
  score : Option PyVal := none
  allowed_to_open : Option Bool := none
  min_bet : Option ℚ := none
  max_bet : Option ℚ := none
  opening : Option Bool := none
  timeoutF : Option (Option ℚ) := none
deriving DecidableEq, Repr

/-- One `recv_message` outcome on the channel. -/
inductive RecvEvent where
  | msg (m : Msg)
  | timeoutEv
  | chanErr
deriving DecidableEq, Repr

/-- Errors escaping an adapter operation.  `fmt` is `MessageFormatError`
with a fixed description string; `betOutOfRange` is the
`MessageFormatError` with attribute `bet` whose description is
`Bet out of range. min: _ max: _, actual: _` formatted from the three
carried values; `attrErr a` is a Python `AttributeError` for attribute `a`
(not a `MessageFormatError`); `timeoutErr` is `MessageTimeout`; `channelErr`
is `ChannelError`. -/
inductive AdapterErr where
  | fmt (attr : String) (desc : String)
  | betOutOfRange (minB maxB actual : ℚ)
  | attrErr (name : String)
  | timeoutErr
  | channelErr
deriving DecidableEq, Repr

instance {ε α : Type} [DecidableEq ε] [DecidableEq α] : DecidableEq (Except ε α) := fun a b =>
  match a, b with
  | .error e1, .error e2 =>
    if h : e1 = e2 then isTrue (by rw [h]) else isFalse fun hc => by cases hc; exact h rfl
  | .error _, .ok _ => isFalse fun hc => by cases hc
  | .ok _, .error _ => isFalse fun hc => by cases hc
  | .ok a1, .ok a2 =>
    if h : a1 = a2 then isTrue (by rw [h]) else isFalse fun hc => by cases hc; exact h rfl

/-- Modelled from the spec: `MessageFormatError.validate_msg_id` lives in the
messaging module, outside the source file.  Spec section 4.3: a missing
`msg_id` fails with attribute `msg_id`, description `missing`; a mismatch
fails with a `MessageFormatError` identifying the mismatch. -/
def validate_msg_id (m : Msg) (expected : String) : Except AdapterErr Unit :=
  match m.msg_id with
  | none => .error (.fmt "msg_id" "Attribute missing")
  | some actual =>
    if actual = expected then .ok ()
    else .error (.fmt "msg_id" ("Wrong message id: expected " ++ expected ++ " was " ++ actual))

/-- The receive loop shared by `change_cards` and `bet`: receive until a
message whose `msg_id` is present and differs from `ping`; a missing
`msg_id` raises at once.  The caller-supplied absolute deadline `timeout`
is passed unchanged to every `recv_message` call of the loop. -/
def recvNonPing (timeout : Option ℚ) : List RecvEvent → Except AdapterErr (Msg × List RecvEvent)
  | [] => .error .timeoutErr
  | .timeoutEv :: _ => .error .timeoutErr
  | .chanErr :: _ => .error .channelErr
  | .msg m :: rest =>
    match m.msg_id with
    | none => .error (.fmt "msg_id" "Attribute missing")
    | some mid => if mid = "ping" then recvNonPing timeout rest else .ok (m, rest)

/-- Integer value of a digit string, for `float(...)` parsing. -/
def digitsVal (l : List Char) : Nat :=
  l.foldl (fun a c => a * 10 + (c.toNat - '0'.toNat)) 0

/-- Decimal forms accepted by Python `float(str)`: optional sign, digits,
optional fraction part.  Exponent, infinity/nan and surrounding whitespace
forms are not modelled (no claim uses them). -/
def parseFloat (s : String) : Option ℚ :=
  let afterSign : Bool × List Char :=
    match s.data with
    | '-' :: r => (true, r)
    | '+' :: r => (false, r)
    | r => (false, r)
  let sgn : Int → Int := fun v => if afterSign.1 then -v else v
  let ip := afterSign.2.takeWhile Char.isDigit
  let rest := afterSign.2.dropWhile Char.isDigit
  match rest with
  | [] => if ip.isEmpty then none else some (mkRat (sgn (digitsVal ip)) 1)
  | '.' :: fp =>
    if fp.all Char.isDigit && !(ip.isEmpty && fp.isEmpty) then
      some (mkRat (sgn (digitsVal ip * 10 ^ fp.length + digitsVal fp)) (10 ^ fp.length))
    else none
  | _ => none

/-- Python `float(x)` on a `bet` value: numbers pass through, strings are
parsed, a non-numeric string raises `ValueError`. -/
def pyFloat : BetVal → Except PyErr ℚ
  | .num q => .ok q
  | .str s =>
    match parseFloat s with
    | some q => .ok q
    | none => .error .valueError

/-- Python `cards[key]` for a list `cards`: integer keys use end-relative
indexing for negatives, out of range raises `IndexError`; a non-integer key
raises `TypeError`. -/
def pyIndex (cards : List Card) (k : PyVal) : Except PyErr Card :=
  match k with
  | .str _ => .error .typeError
  | .int n =>
    let i : Int := if n < 0 then n + cards.length else n
    if 0 ≤ i ∧ i < (cards.length : Int) then .ok (cards.getD i.toNat 0)
    else .error .indexError

/-- Reads off an all-integer list of keys, `none` if some element is not an
integer. -/
def asInts : List PyVal → Option (List Int)
  | [] => some []
  | .int n :: rest => (asInts rest).map fun ns => n :: ns
  | .str _ :: _ => none

/-- Reads off an all-string list of keys, `none` if some element is not a
string. -/
def asStrs : List PyVal → Option (List String)
  | [] => some []
  | .str s :: rest => (asStrs rest).map fun ss => s :: ss
  | .int _ :: _ => none

/-- Python `sorted(set(keys))`: duplicates are removed, then the distinct
elements are sorted; comparing elements of different types raises
`TypeError` (set hashing never fails on the modelled element kinds). -/
def pySortedSet (keys : List PyVal) : Except PyErr (List PyVal) :=
  match asInts keys.dedup with
  | some ns => .ok ((List.insertionSort (· ≤ ·) ns).map PyVal.int)
  | none =>
    match asStrs keys.dedup with
    | some ss => .ok ((List.insertionSort (· ≤ ·) ss).map PyVal.str)
    | none => .error .typeError

/-- The comprehension `[self._cards[key] for key in discard_keys]`: resolves
every key in order, stopping at the first failing key. -/
def resolveAll (hand : List Card) : List PyVal → Except PyErr (List Card)
  | [] => .ok []
  | k :: rest =>
    match pyIndex hand k with
    | .error e => .error e
    | .ok c =>
      match resolveAll hand rest with
      | .error e => .error e
      | .ok cs => .ok (c :: cs)

/-- `PlayerServer.change_cards`: receive (skipping pings), validate the
message id, require the `cards` field, deduplicate and sort the keys, check
the maximum of 4, resolve each key against the hand.  `TypeError` and
`IndexError` from normalization or resolution become the
`MessageFormatError` with description `Invalid list of cards`; the
maximum-exceeded `MessageFormatError` is raised directly and is not caught
by that handler. -/
def change_cards (hand : List Card) (timeout : Option ℚ) (stream : List RecvEvent) :
    Except AdapterErr (List PyVal × List Card) :=
  match recvNonPing timeout stream with
  | .error e => .error e
  | .ok (message, _) =>
    match validate_msg_id message "change-cards" with
    | .error e => .error e
    | .ok _ =>
      match message.cards with
      | none => .error (.fmt "cards" "Attribute is missing")
      | some discard_keys =>
        match pySortedSet discard_keys with
        | .error _ => .error (.fmt "cards" "Invalid list of cards")
        | .ok sorted_keys =>
          if 4 < sorted_keys.length then
            .error (.fmt "cards" "Maximum number of cards exceeded")
          else
            match resolveAll hand sorted_keys with
            | .error _ => .error (.fmt "cards" "Invalid list of cards")
            | .ok discards => .ok (sorted_keys, discards)

/-- `PlayerServer.bet`: send the bet request (`sendOk = false` models a
transport failure of the send, which propagates as `ChannelError`), receive
skipping pings, validate the message id, return `-1` at once when
`max_bet == -1`, else require and parse the `bet` field, return a `-1.0`
fold at once, and range-check any other value.  In the `except ValueError`
handler the source evaluates `message.bet` on a dict, so a Python
`AttributeError` escapes instead of the intended `MessageFormatError`. -/
def bet (min_bet max_bet : ℚ) (opening : Bool) (timeout : Option ℚ)
    (sendOk : Bool) (stream : List RecvEvent) : Except AdapterErr ℚ :=
  if !sendOk then .error .channelErr
  else
    match recvNonPing timeout stream with
    | .error e => .error e
    | .ok (message, _) =>
      match validate_msg_id message "bet" with
      | .error e => .error e
      | .ok _ =>
        if max_bet = -1 then .ok (-1)
        else
          match message.bet with
          | none => .error (.fmt "bet" "Attribute is missing")
          | some bv =>
            match pyFloat bv with
            | .error _ => .error (.attrErr "bet")
            | .ok b =>
              if b = -1 then .ok b
              else if b < min_bet ∨ max_bet < b then
                .error (.betOutOfRange min_bet max_bet b)
              else .ok b

/-- Outcome of `PlayerServer.ping`: the returned boolean and whether
`disconnect()` was invoked on the channel. -/
structure PingResult where
  result : Bool
  disconnected : Bool
deriving DecidableEq, Repr

/-- `PlayerServer.ping`: send a ping (`sendOk = false` models a send that
raises `ChannelError`); with `pong` set, receive one message under the fixed
two-second deadline and validate its `msg_id` is `ping`.  Every
`ChannelError`, `MessageTimeout` or `MessageFormatError` in the exchange is
caught: the error is logged, the channel is disconnected, and `false` is
returned. -/
def ping (pong : Bool) (sendOk : Bool) (stream : List RecvEvent) : PingResult :=
  if !sendOk then ⟨false, true⟩
  else if !pong then ⟨true, false⟩
  else
    match stream with
    | [] => ⟨false, true⟩
    | .timeoutEv :: _ => ⟨false, true⟩
    | .chanErr :: _ => ⟨false, true⟩
    | .msg m :: _ =>
      match validate_msg_id m "ping" with
      | .ok _ => ⟨true, false⟩
      | .error _ => ⟨false, true⟩

/-- The participant record state the adapter mutates: hand, score, and the
derived `allowed_to_open` flag stored on the adapter at deal time. -/
structure PlayerState where
  cards : List Card
  score : Score
  allowed_to_open : Bool
deriving DecidableEq, Repr

/-- Serialization `Card.dto()`, external; abstracted as the identifier. -/
def card_dto (c : Card) : PyVal := .int (c : Int)

/-- Serialization `Score.dto()`, external; abstracted as the rank. -/
def score_dto (s : Score) : PyVal := .int (s.rank : Int)

/-- `PlayerServer.set_cards`: store the hand and score on the participant
record (the base `Player.set_cards`, modelled from the spec as the plain
mutation), compute `allowed_to_open` from the score comparison, and build
the one-way `set-cards` message that is sent on the channel. -/
def set_cards (st : PlayerState) (cards : List Card) (score : Score)
    (min_opening_score : Score) : PlayerState × Msg :=
  let st1 : PlayerState := { st with cards := cards, score := score }
  let allowed : Bool := decide (0 ≤ min_opening_score.cmp st1.score)
  ({ st1 with allowed_to_open := allowed },
    { msg_id := some "set-cards",
      cards := some (st1.cards.map card_dto),
      score := some (score_dto st1.score),
      allowed_to_open := some allowed })

/-- Strict ascending order on key lists: meaningful on integer keys, the
only kind that survives resolution. -/
def pyLt : PyVal → PyVal → Prop
  | .int a, .int b => a < b
  | _, _ => False

instance : DecidableRel pyLt := fun a b =>
  match a, b with
  | .int x, .int y => inferInstanceAs (Decidable (x < y))
  | .int _, .str _ => isFalse id
  | .str _, .int _ => isFalse id
  | .str _, .str _ => isFalse id

/-- A `cards` element that is invalid for `hand` in the sense of the spec:
not an integer, or an integer index at least the hand length. -/
def badKey (hand : List Card) (k : PyVal) : Prop :=
  (∃ s, k = PyVal.str s) ∨ (∃ n, k = PyVal.int n ∧ (hand.length : Int) ≤ n)

/-! ## Helper lemmas -/

theorem recvNonPing_skips (timeout : Option ℚ) (pings : List Msg)
    (hp : ∀ p ∈ pings, p.msg_id = some "ping") (rest : List RecvEvent) :
    recvNonPing timeout (pings.map RecvEvent.msg ++ rest) = recvNonPing timeout rest := by
  induction pings with
  | nil => rfl
  | cons p ps ih =>
    have h1 : p.msg_id = some "ping" := hp p (List.mem_cons_self _ _)
    have ih1 := ih fun q hq => hp q (List.mem_cons_of_mem _ hq)
    simp [recvNonPing, h1, ih1]

theorem asInts_eq {d : List PyVal} {ns : List Int} (h : asInts d = some ns) :
    d = ns.map PyVal.int := by
  induction d generalizing ns with
  | nil => simp [asInts] at h; simp [← h]
  | cons k d ih =>
    cases k with
    | int n =>
      cases hrec : asInts d with
      | none => simp [asInts, hrec] at h
      | some ms =>
        simp only [asInts, hrec, Option.map_some'] at h
        cases h
        simp [ih hrec]
    | str s => simp [asInts] at h

theorem asStrs_eq {d : List PyVal} {ss : List String} (h : asStrs d = some ss) :
    d = ss.map PyVal.str := by
  induction d generalizing ss with
  | nil => simp [asStrs] at h; simp [← h]
  | cons k d ih =>
    cases k with
    | str s =>
      cases hrec : asStrs d with
      | none => simp [asStrs, hrec] at h
      | some ms =>
        simp only [asStrs, hrec, Option.map_some'] at h
        cases h
        simp [ih hrec]
    | int n => simp [asStrs] at h

theorem pySortedSet_ok_mem {keys ks : List PyVal} (h : pySortedSet keys = .ok ks)
    {k : PyVal} (hk : k ∈ keys) : k ∈ ks := by
  have hd : k ∈ keys.dedup := List.mem_dedup.mpr hk
  unfold pySortedSet at h
  cases hi : asInts keys.dedup with
  | some ns =>
    rw [hi] at h
    cases h
    rw [asInts_eq hi] at hd
    obtain ⟨n, hn, rfl⟩ := List.mem_map.mp hd
    exact List.mem_map.mpr ⟨n, (List.mem_insertionSort _).mpr hn, rfl⟩
  | none =>
    rw [hi] at h
    cases hs : asStrs keys.dedup with
    | some ss =>
      rw [hs] at h
      cases h
      rw [asStrs_eq hs] at hd
      obtain ⟨s, hn, rfl⟩ := List.mem_map.mp hd
      exact List.mem_map.mpr ⟨s, (List.mem_insertionSort _).mpr hn, rfl⟩
    | none => rw [hs] at h; cases h

theorem pySortedSet_ok_length {keys ks : List PyVal} (h : pySortedSet keys = .ok ks) :
    ks.length = keys.dedup.length := by
  unfold pySortedSet at h
  cases hi : asInts keys.dedup with
  | some ns =>
    rw [hi] at h
    cases h
    simp [asInts_eq hi]
  | none =>
    rw [hi] at h
    cases hs : asStrs keys.dedup with
    | some ss =>
      rw [hs] at h
      cases h
      simp [asStrs_eq hs]
    | none => rw [hs] at h; cases h

theorem pyVal_int_injective : Function.Injective PyVal.int := by
  intro a b h
  cases h
  rfl

theorem pySortedSet_ok_pairwise {keys ks : List PyVal} (h : pySortedSet keys = .ok ks)
    (hint : ∀ k ∈ ks, ∃ n, k = PyVal.int n) :
    List.Pairwise pyLt ks ∧ ks.Nodup := by
  unfold pySortedSet at h
  cases hi : asInts keys.dedup with
  | some ns =>
    rw [hi] at h
    cases h
    have hnd : ns.Nodup := by
      have := List.nodup_dedup keys
      rw [asInts_eq hi] at this
      exact this.of_map
    have hsortnd : (List.insertionSort (· ≤ ·) ns).Nodup :=
      (List.perm_insertionSort _ ns).nodup_iff.mpr hnd
    have hsorted : List.Sorted (· ≤ ·) (List.insertionSort (· ≤ ·) ns) :=
      List.sorted_insertionSort _ ns
    have hlt : List.Sorted (· < ·) (List.insertionSort (· ≤ ·) ns) :=
      hsorted.lt_of_le hsortnd
    constructor
    · exact (List.pairwise_map).mpr (hlt.imp fun hab => hab)
    · exact hsortnd.map pyVal_int_injective
  | none =>
    rw [hi] at h
    cases hs : asStrs keys.dedup with
    | some ss =>
      rw [hs] at h
      cases h
      cases hcase : List.insertionSort (· ≤ ·) ss with
      | nil => simp
      | cons s rest2 =>
        exfalso
        have hx : PyVal.str s ∈ (List.insertionSort (· ≤ ·) ss).map PyVal.str :=
          List.mem_map.mpr ⟨s, by rw [hcase]; exact List.mem_cons_self _ _, rfl⟩
        obtain ⟨n, hn⟩ := hint (PyVal.str s) hx
        simp at hn
    | none => rw [hs] at h; cases h

theorem resolveAll_ok_forall {hand : List Card} {ks : List PyVal} {ds : List Card}
    (h : resolveAll hand ks = .ok ds) :
    ∀ k ∈ ks, ∃ c, pyIndex hand k = .ok c := by
  induction ks generalizing ds with
  | nil => intro k hk; cases hk
  | cons k ks ih =>
    intro q hq
    unfold resolveAll at h
    cases hpi : pyIndex hand k with
    | error e => rw [hpi] at h; cases h
    | ok c =>
      rw [hpi] at h
      cases hrest : resolveAll hand ks with
      | error e => rw [hrest] at h; cases h
      | ok cs =>
        rcases List.mem_cons.mp hq with rfl | hq2
        · exact ⟨c, hpi⟩
        · exact ih hrest q hq2

theorem resolveAll_error_of_mem {hand : List Card} {ks : List PyVal} {k : PyVal}
    (hk : k ∈ ks) {e : PyErr} (he : pyIndex hand k = .error e) :
    ∃ e2, resolveAll hand ks = .error e2 := by
  induction ks with
  | nil => cases hk
  | cons q ks ih =>
    rcases List.mem_cons.mp hk with rfl | hk2
    · exact ⟨e, by unfold resolveAll; rw [he]⟩
    · cases hpi : pyIndex hand q with
      | error e3 => exact ⟨e3, by unfold resolveAll; rw [hpi]⟩
      | ok c =>
        obtain ⟨e2, he2⟩ := ih hk2
        exact ⟨e2, by unfold resolveAll; rw [hpi, he2]⟩

theorem pyIndex_ok_int {hand : List Card} {k : PyVal} {c : Card}
    (h : pyIndex hand k = .ok c) : ∃ n, k = PyVal.int n := by
  cases k with
  | int n => exact ⟨n, rfl⟩
  | str s => simp [pyIndex] at h

theorem badKey_pyIndex_error {hand : List Card} {k : PyVal} (h : badKey hand k) :
    ∃ e, pyIndex hand k = .error e := by
  rcases h with ⟨s, rfl⟩ | ⟨n, rfl, hn⟩
  · exact ⟨.typeError, rfl⟩
  · refine ⟨.indexError, ?_⟩
    have h0 : ¬ n < 0 := by omega
    simp only [pyIndex, h0, if_false]
    rw [if_neg]
    intro hcon
    omega

theorem change_cards_cons {hand : List Card} {t : Option ℚ} {m : Msg}
    {rest : List RecvEvent} {keys : List PyVal}
    (hid : m.msg_id = some "change-cards") (hc : m.cards = some keys) :
    change_cards hand t (.msg m :: rest) =
      match pySortedSet keys with
      | .error _ => .error (.fmt "cards" "Invalid list of cards")
      | .ok sorted_keys =>
        if 4 < sorted_keys.length then
          .error (.fmt "cards" "Maximum number of cards exceeded")
        else
          match resolveAll hand sorted_keys with
          | .error _ => .error (.fmt "cards" "Invalid list of cards")
          | .ok discards => .ok (sorted_keys, discards) := by
  simp [change_cards, recvNonPing, hid, validate_msg_id, hc]

theorem change_cards_ok_inv {hand : List Card} {t : Option ℚ} {stream : List RecvEvent}
    {keys : List PyVal} {discards : List Card}
    (h : change_cards hand t stream = .ok (keys, discards)) :
    ∃ keys0, pySortedSet keys0 = .ok keys ∧ keys.length ≤ 4 ∧
      resolveAll hand keys = .ok discards := by
  unfold change_cards at h
  split at h
  · cases h
  · split at h
    · cases h
    · split at h
      · cases h
      · rename_i message rest hrecv u hvalid keys0 hcards
        split at h
        · cases h
        · rename_i sk hss
          split at h
          · cases h
          · rename_i hlen
            split at h
            · cases h
            · rename_i ds hres
              cases h
              exact ⟨keys0, hss, by omega, hres⟩

theorem recvNonPing_msg_ne_ping (timeout : Option ℚ) (m : Msg) (rest : List RecvEvent)
    (mid : String) (hid : m.msg_id = some mid) (hne : mid ≠ "ping") :
    recvNonPing timeout (.msg m :: rest) = .ok (m, rest) := by
  simp [recvNonPing, hid, hne]

theorem validate_msg_id_ok (m : Msg) (expected : String) (hid : m.msg_id = some expected) :
    validate_msg_id m expected = .ok () := by
  simp [validate_msg_id, hid]

/-! ## Claim theorems -/

/-- C1: `set_cards` stores the new hand and score on the participant record,
computes `allowed_to_open` true exactly when the new score meets or exceeds
`min_opening_score` in the external ranking (ties eligible), stores the flag
on the adapter, and includes the same flag in the outbound `set-cards`
message; for a score ranking strictly below the minimum the flag sent is
`false`. -/
theorem set_cards_allowed_to_open_spec (st : PlayerState) (cards : List Card)
    (score min_open : Score) :
    ((set_cards st cards score min_open).1.cards = cards ∧
      (set_cards st cards score min_open).1.score = score) ∧
    ((set_cards st cards score min_open).1.allowed_to_open = true ↔
      min_open.rank ≤ score.rank) ∧
    ((set_cards st cards score min_open).2.allowed_to_open =
      some (set_cards st cards score min_open).1.allowed_to_open) ∧
    (score.rank < min_open.rank →
      (set_cards st cards score min_open).2.allowed_to_open = some false) := by
  refine ⟨⟨rfl, rfl⟩, ?_, rfl, ?_⟩
  · simp only [set_cards, Score.cmp, decide_eq_true_eq]
    split_ifs <;> omega
  · intro h
    simp only [set_cards, Score.cmp, Option.some.injEq, decide_eq_false_iff_not, not_le]
    split_ifs <;> omega

/-- C1 witness: a hand scoring rank 1 against minimum rank 2 sends
`allowed_to_open = false` in the outbound message. -/
theorem set_cards_allowed_to_open_spec_witness :
    (set_cards ⟨[], ⟨0⟩, false⟩ [1, 2] ⟨1⟩ ⟨2⟩).2.allowed_to_open = some false :=
  (set_cards_allowed_to_open_spec ⟨[], ⟨0⟩, false⟩ [1, 2] ⟨1⟩ ⟨2⟩).2.2.2 (by decide)

/-- C2: evaluation of the code at the failing input.  A bet reply whose
`bet` field is the non-numeric string `abc` makes `float(...)` raise
`ValueError`; the handler then evaluates `message.bet` on a dict, so a
Python `AttributeError` escapes instead of the `MessageFormatError` with
attribute `bet` that the claim (and the spec) describe. -/
theorem bet_unparsable_value_attribute_error :
    bet 10 50 false none true
        [.msg { msg_id := some "bet", bet := some (.str "abc") }] =
      .error (.attrErr "bet") := rfl

/-- C3: with the `max_bet == -1` sentinel, once a non-ping reply carrying
msg id `bet` is received, `bet()` returns `-1` whatever the rest of the
reply body holds, malformed or not, and raises nothing from that body. -/
theorem bet_no_bet_required_sentinel (min_bet : ℚ) (opening : Bool)
    (timeout : Option ℚ) (m : Msg) (rest : List RecvEvent)
    (hid : m.msg_id = some "bet") :
    bet min_bet (-1) opening timeout true (.msg m :: rest) = .ok (-1) := by
  have h1 := recvNonPing_msg_ne_ping timeout m rest "bet" hid (by decide)
  have h2 := validate_msg_id_ok m "bet" hid
  simp [bet, h1, h2]

/-- C3 witness: the reply body is missing the `bet` field entirely, and the
call still returns `-1`. -/
theorem bet_no_bet_required_sentinel_witness :
    bet 10 (-1) false none true [.msg { msg_id := some "bet" }] = .ok (-1) :=
  bet_no_bet_required_sentinel 10 false none { msg_id := some "bet" } [] rfl

/-- C7: for a bet reply with msg id `bet` and a value parsing to `v`, with
`max_bet` not the `-1` sentinel: if `min_bet <= v <= max_bet` the call
returns exactly `v`; if `v` is out of range and not the fold sentinel
`-1.0` the call raises the `MessageFormatError` with attribute `bet` whose
description cites `min_bet`, `max_bet` and `v`. -/
theorem bet_returns_value_in_range (min_bet max_bet : ℚ) (opening : Bool)
    (timeout : Option ℚ) (m : Msg) (rest : List RecvEvent) (bv : BetVal) (v : ℚ)
    (hid : m.msg_id = some "bet") (hmax : max_bet ≠ -1)
    (hbet : m.bet = some bv) (hv : pyFloat bv = .ok v) :
    (min_bet ≤ v → v ≤ max_bet →
      bet min_bet max_bet opening timeout true (.msg m :: rest) = .ok v) ∧
    ((v < min_bet ∨ max_bet < v) → v ≠ -1 →
      bet min_bet max_bet opening timeout true (.msg m :: rest) =
        .error (.betOutOfRange min_bet max_bet v)) := by
  have h1 := recvNonPing_msg_ne_ping timeout m rest "bet" hid (by decide)
  have h2 := validate_msg_id_ok m "bet" hid
  constructor
  · intro hlo hhi
    simp only [bet, h1, h2, hbet, hv, Bool.not_true, Bool.false_eq_true, if_false]
    rw [if_neg hmax]
    by_cases hf : v = -1
    · rw [if_pos hf, hf]
    · rw [if_neg hf, if_neg (by push_neg; exact ⟨hlo, hhi⟩)]
  · intro hout hne
    simp only [bet, h1, h2, hbet, hv, Bool.not_true, Bool.false_eq_true, if_false]
    rw [if_neg hmax, if_neg hne, if_pos hout]

/-- C7 witness: bounds `[10, 50]`; a reply with bet `30` returns `30.0`, a
reply with bet `5` raises the out-of-range error citing `10`, `50` and
`5.0`. -/
theorem bet_returns_value_in_range_witness :
    bet 10 50 false none true
        [.msg { msg_id := some "bet", bet := some (.str "30") }] = .ok 30 ∧
    bet 10 50 false none true
        [.msg { msg_id := some "bet", bet := some (.str "5") }] =
      .error (.betOutOfRange 10 50 5) := by
  constructor
  · exact (bet_returns_value_in_range 10 50 false none _ [] (.str "30") 30 rfl
      (by norm_num) rfl (by decide)).1 (by norm_num) (by norm_num)
  · exact (bet_returns_value_in_range 10 50 false none _ [] (.str "5") 5 rfl
      (by norm_num) rfl (by decide)).2 (Or.inl (by norm_num)) (by norm_num)

/-- C8: a bet reply parsing to `-1.0` is treated as a fold and returned at
once with no bounds check, even when `-1.0` is below `min_bet`. -/
theorem bet_fold_sentinel_bypasses_range (min_bet max_bet : ℚ) (opening : Bool)
    (timeout : Option ℚ) (m : Msg) (rest : List RecvEvent) (bv : BetVal)
    (hid : m.msg_id = some "bet") (hmax : max_bet ≠ -1)
    (hbet : m.bet = some bv) (hv : pyFloat bv = .ok (-1)) :
    bet min_bet max_bet opening timeout true (.msg m :: rest) = .ok (-1) := by
  have h1 := recvNonPing_msg_ne_ping timeout m rest "bet" hid (by decide)
  have h2 := validate_msg_id_ok m "bet" hid
  simp only [bet, h1, h2, hbet, hv, Bool.not_true, Bool.false_eq_true, if_false]
  rw [if_neg hmax]
  simp

/-- C8 witness: bounds `[10, 50]` with a reply bet of `-1`: the fold value
is returned although `-1.0 < 10`. -/
theorem bet_fold_sentinel_bypasses_range_witness :
    bet 10 50 false none true
        [.msg { msg_id := some "bet", bet := some (.str "-1") }] = .ok (-1) :=
  bet_fold_sentinel_bypasses_range 10 50 false none _ [] (.str "-1") rfl
    (by norm_num) rfl (by decide)

/-- C9: any number of leading `ping` messages before the substantive reply
is transparently skipped: both `change_cards` and `bet` give the same
outcome on `pings ++ rest` as on `rest`, at the same caller-supplied
absolute deadline (the loop passes `timeout` unchanged to every receive). -/
theorem leading_pings_transparent (timeout : Option ℚ) (pings : List Msg)
    (rest : List RecvEvent) (hp : ∀ p ∈ pings, p.msg_id = some "ping") :
    (∀ hand, change_cards hand timeout (pings.map RecvEvent.msg ++ rest) =
        change_cards hand timeout rest) ∧
    (∀ min_bet max_bet opening sendOk,
        bet min_bet max_bet opening timeout sendOk (pings.map RecvEvent.msg ++ rest) =
          bet min_bet max_bet opening timeout sendOk rest) := by
  have hr := recvNonPing_skips timeout pings hp rest
  constructor
  · intro hand
    unfold change_cards
    rw [hr]
  · intro a b c d
    unfold bet
    rw [hr]

/-- C9 witness: the stream `ping, ping, change-cards` gives the same result
as `change-cards` alone. -/
theorem leading_pings_transparent_witness :
    change_cards [0, 1, 2, 3, 4] none
        ([{ msg_id := some "ping" }, { msg_id := some "ping" }].map RecvEvent.msg ++
          [.msg { msg_id := some "change-cards", cards := some [.int 2, .int 2, .int 0] }]) =
      change_cards [0, 1, 2, 3, 4] none
        [.msg { msg_id := some "change-cards", cards := some [.int 2, .int 2, .int 0] }] :=
  (leading_pings_transparent none
      [{ msg_id := some "ping" }, { msg_id := some "ping" }]
      [.msg { msg_id := some "change-cards", cards := some [.int 2, .int 2, .int 0] }]
      (by decide)).1 [0, 1, 2, 3, 4]

/-- C10: `ping(pong=true)` never propagates an error: a send failure, a
receive timeout, a transport error on receive, and a malformed reply (msg
id missing or different from `ping`) all make it return `false` after
disconnecting the channel; a successful exchange returns `true` with no
disconnect. -/
theorem ping_pong_never_raises :
    (∀ stream, ping true false stream = ⟨false, true⟩) ∧
    (ping true true [] = ⟨false, true⟩) ∧
    (∀ rest, ping true true (.timeoutEv :: rest) = ⟨false, true⟩) ∧
    (∀ rest, ping true true (.chanErr :: rest) = ⟨false, true⟩) ∧
    (∀ m rest, m.msg_id ≠ some "ping" → ping true true (.msg m :: rest) = ⟨false, true⟩) ∧
    (∀ m rest, m.msg_id = some "ping" → ping true true (.msg m :: rest) = ⟨true, false⟩) := by
  refine ⟨fun s => rfl, rfl, fun r => rfl, fun r => rfl, ?_, ?_⟩
  · intro m rest hne
    cases hm : m.msg_id with
    | none => simp [ping, validate_msg_id, hm]
    | some a =>
      have ha : a ≠ "ping" := by
        intro hcon
        rw [hcon] at hm
        exact hne hm
      simp [ping, validate_msg_id, hm, ha]
  · intro m rest hidm
    simp [ping, validate_msg_id, hidm]

/-- C10 witness: a malformed reply whose msg id is `bet` yields `false` and
a disconnect. -/
theorem ping_pong_never_raises_witness :
    ping true true [.msg { msg_id := some "bet" }] = ⟨false, true⟩ :=
  ping_pong_never_raises.2.2.2.2.1 { msg_id := some "bet" } [] (by decide)

/-- C4: every normal return of `change_cards` yields strictly ascending,
duplicate-free indices, at most 4 of them; duplicated or unsorted inbound
indices are normalized before resolution.  In particular the hand
`[A, B, C, D, E]` with request indices `[2, 2, 0]` gives indices `[0, 2]`
and cards `[A, C]`. -/
theorem change_cards_normalizes :
    (∀ (hand : List Card) (t : Option ℚ) (stream : List RecvEvent)
        (keys : List PyVal) (discards : List Card),
        change_cards hand t stream = .ok (keys, discards) →
        List.Pairwise pyLt keys ∧ keys.Nodup ∧ keys.length ≤ 4) ∧
    change_cards [0, 1, 2, 3, 4] none
        [.msg { msg_id := some "change-cards", cards := some [.int 2, .int 2, .int 0] }] =
      .ok ([.int 0, .int 2], [0, 2]) := by
  constructor
  · intro hand t stream keys discards h
    obtain ⟨keys0, hss, hlen, hres⟩ := change_cards_ok_inv h
    have hint : ∀ k ∈ keys, ∃ n, k = PyVal.int n := fun k hk =>
      let ⟨c, hc⟩ := resolveAll_ok_forall hres k hk
      pyIndex_ok_int hc
    obtain ⟨hpw, hnd⟩ := pySortedSet_ok_pairwise hss hint
    exact ⟨hpw, hnd, hlen⟩
  · decide

/-- C4 witness: the concrete normalized result `[0, 2]` satisfies the three
shape properties. -/
theorem change_cards_normalizes_witness :
    List.Pairwise pyLt [PyVal.int 0, PyVal.int 2] ∧
      ([PyVal.int 0, PyVal.int 2] : List PyVal).Nodup ∧
      ([PyVal.int 0, PyVal.int 2] : List PyVal).length ≤ 4 :=
  change_cards_normalizes.1 [0, 1, 2, 3, 4] none
    [.msg { msg_id := some "change-cards", cards := some [.int 2, .int 2, .int 0] }]
    [.int 0, .int 2] [0, 2] change_cards_normalizes.2

/-- C5 counterexample: five distinct indices all `>=` the hand length make
the maximum-of-4 check fire first, so the error description is
`Maximum number of cards exceeded`, not the `Invalid list of cards` the
claim prescribes for every out-of-range index. -/
theorem change_cards_desc_counterexample :
    change_cards [0, 1, 2, 3, 4] none
        [.msg { msg_id := some "change-cards",
                cards := some [.int 10, .int 11, .int 12, .int 13, .int 14] }] =
      .error (.fmt "cards" "Maximum number of cards exceeded") ∧
    "Maximum number of cards exceeded" ≠ "Invalid list of cards" := by
  exact ⟨by decide, by decide⟩

/-- C5 (amended): a well-formed `change-cards` message whose `cards` field
holds an index at least the hand length or a non-integer element always
fails with a `MessageFormatError` with attribute `cards`; the description
is `Invalid list of cards` whenever the deduplicated list has at most 4
elements, while more than 4 distinct same-type elements fail first with the
maximum-exceeded `MessageFormatError`, still with attribute `cards`. -/
theorem change_cards_bad_key_errors (hand : List Card) (t : Option ℚ) (m : Msg)
    (rest : List RecvEvent) (keys : List PyVal)
    (hid : m.msg_id = some "change-cards") (hc : m.cards = some keys)
    (hbad : ∃ k ∈ keys, badKey hand k) :
    (∃ desc, change_cards hand t (.msg m :: rest) = .error (.fmt "cards" desc)) ∧
    (keys.dedup.length ≤ 4 →
      change_cards hand t (.msg m :: rest) =
        .error (.fmt "cards" "Invalid list of cards")) ∧
    (∀ ks, pySortedSet keys = .ok ks → 4 < ks.length →
      change_cards hand t (.msg m :: rest) =
        .error (.fmt "cards" "Maximum number of cards exceeded")) := by
  obtain ⟨k, hkmem, hbadk⟩ := hbad
  obtain ⟨e, he⟩ := badKey_pyIndex_error hbadk
  cases hss : pySortedSet keys with
  | error e2 =>
    have hcc : change_cards hand t (.msg m :: rest) =
        .error (.fmt "cards" "Invalid list of cards") := by
      rw [change_cards_cons hid hc]
      simp only [hss]
    refine ⟨⟨_, hcc⟩, fun _ => hcc, ?_⟩
    intro ks hks hlen
    simp at hks
  | ok ks =>
    have hlen_eq : ks.length = keys.dedup.length := pySortedSet_ok_length hss
    by_cases hlen : 4 < ks.length
    · have hcc : change_cards hand t (.msg m :: rest) =
          .error (.fmt "cards" "Maximum number of cards exceeded") := by
        rw [change_cards_cons hid hc]
        simp only [hss]
        rw [if_pos hlen]
      refine ⟨⟨_, hcc⟩, ?_, fun ks2 hks2 _ => ?_⟩
      · intro hd4
        omega
      · exact hcc
    · obtain ⟨e2, he2⟩ := resolveAll_error_of_mem (pySortedSet_ok_mem hss hkmem) he
      have hcc : change_cards hand t (.msg m :: rest) =
          .error (.fmt "cards" "Invalid list of cards") := by
        rw [change_cards_cons hid hc]
        simp only [hss]
        rw [if_neg hlen, he2]
      refine ⟨⟨_, hcc⟩, fun _ => hcc, ?_⟩
      intro ks2 hks2 hlen2
      injection hks2 with hk2
      subst hk2
      omega

/-- C5 witness: an out-of-range index `7` against a 5-card hand fails with
attribute `cards` and description `Invalid list of cards`. -/
theorem change_cards_bad_key_errors_witness :
    change_cards [0, 1, 2, 3, 4] none
        [.msg { msg_id := some "change-cards", cards := some [.int 7] }] =
      .error (.fmt "cards" "Invalid list of cards") :=
  (change_cards_bad_key_errors [0, 1, 2, 3, 4] none
      { msg_id := some "change-cards", cards := some [.int 7] } [] [.int 7] rfl rfl
      ⟨.int 7, List.mem_cons_self _ _, Or.inr ⟨7, rfl, by decide⟩⟩).2.1 (by decide)

/-- C6 (implicit): a single negative integer index `k` with
`-(hand length) <= k <= -1` raises nothing: `change_cards` returns normally
with `k` itself among the returned indices and the card resolved by
end-relative indexing, so the returned indices are not guaranteed to be
non-negative slot numbers. -/
theorem change_cards_negative_index (hand : List Card) (t : Option ℚ)
    (rest : List RecvEvent) (k : Int)
    (h1 : -(hand.length : Int) ≤ k) (h2 : k ≤ -1) :
    change_cards hand t
        (.msg { msg_id := some "change-cards", cards := some [.int k] } :: rest) =
      .ok ([.int k], [hand.getD (k + (hand.length : Int)).toNat 0]) := by
  rw [change_cards_cons rfl rfl]
  have hds : pySortedSet [PyVal.int k] = .ok [PyVal.int k] := by
    simp [pySortedSet, asInts, List.insertionSort, List.orderedInsert]
  simp only [hds]
  rw [if_neg (by simp)]
  have hneg : k < 0 := by omega
  have hpi : pyIndex hand (.int k) = .ok (hand.getD (k + (hand.length : Int)).toNat 0) := by
    simp only [pyIndex, if_pos hneg]
    rw [if_pos ⟨by omega, by omega⟩]
  simp [resolveAll, hpi]

/-- C6 witness: index `-1` against the hand `[10, 20, 30, 40, 50]` returns
normally with index `-1` and the last card `50`. -/
theorem change_cards_negative_index_witness :
    change_cards [10, 20, 30, 40, 50] none
        [.msg { msg_id := some "change-cards", cards := some [.int (-1)] }] =
      .ok ([.int (-1)], [50]) := by
  have h := change_cards_negative_index [10, 20, 30, 40, 50] none [] (-1)
    (by decide) (by decide)
  simpa using h

end PyPoker
